import Mathlib

/-!
Verification of the grid-compositing logic of `src/grid-image.py`.

The Python program is straight-line image composition built on PIL.  We embed
the arithmetic content of its functions shallowly:

* PIL bitmaps are modelled by their size and color mode (`PImage`); every
  operation of the program that matters to the claims (resize, thumbnail,
  border, background allocation, export) acts on sizes and modes.
* Python `int` arithmetic is `Nat`/`Int`; Python float division together with
  `int(...)` truncation is modelled by exact rational arithmetic and `pyInt`.
* Text measurement (PIL `textbbox`) is an external service and enters as an
  arbitrary measuring function `String → ℕ`.
* `PIL.Image.thumbnail` is the one library primitive whose output size the
  program relies on; `thumbnailSize` transcribes its size computation
  (Pillow's `Image.thumbnail`) with exact rationals in place of floats.
-/

namespace GridImage

/-- PIL color modes that occur in the program (`RGB`, `RGBA`, `LA`, palette). -/
inductive PMode
  | RGB
  | RGBA
  | LA
  | P
deriving DecidableEq

/-- A PIL bitmap, abstracted to its pixel dimensions and color mode. -/
structure PImage where
  width : ℕ
  height : ℕ
  mode : PMode
deriving DecidableEq

/-- Python `int(q)`: truncation of a real toward zero. -/
def pyInt (q : ℚ) : ℤ :=
  if 0 ≤ q then ⌊q⌋ else ⌈q⌉

/-- Pillow's `round_aspect` helper inside `Image.thumbnail`:
`max(min(math.floor(number), math.ceil(number), key=key), 1)`.
Python's `min` keeps the first argument on ties, so the floor wins a tie. -/
def roundAspect (number : ℚ) (key : ℤ → ℚ) : ℤ :=
  max (if key ⌊number⌋ ≤ key ⌈number⌉ then ⌊number⌋ else ⌈number⌉) 1

/-- Size computation of Pillow's `Image.thumbnail((tw, th))` applied to a
`w0 × h0` image: no-op when the image already fits, otherwise shrink to fit
the box, choosing between floor and ceil by closeness to the aspect ratio. -/
def thumbnailSize (w0 h0 tw th : ℕ) : ℕ × ℕ :=
  if w0 ≤ tw ∧ h0 ≤ th then (w0, h0)
  else if (w0 : ℚ) / (h0 : ℚ) ≤ (tw : ℚ) / (th : ℚ) then
    ((roundAspect ((th : ℚ) * ((w0 : ℚ) / (h0 : ℚ)))
        (fun n => |(w0 : ℚ) / (h0 : ℚ) - (n : ℚ) / (th : ℚ)|)).toNat, th)
  else
    (tw, (roundAspect ((tw : ℚ) / ((w0 : ℚ) / (h0 : ℚ)))
        (fun n => if n = 0 then 0 else |(w0 : ℚ) / (h0 : ℚ) - (tw : ℚ) / (n : ℚ)|)).toNat)

/-- Mode conversion at the top of `resize_image`: RGBA when transparency is
preserved and the source has an alpha channel (or palette), RGB otherwise. -/
def convertedMode (preserve_transparency : Bool) (m : PMode) : PMode :=
  if preserve_transparency = true ∧ (m = .RGBA ∨ m = .LA ∨ m = .P) then .RGBA else .RGB

/-- `resize_image(img, width, height, maintain_aspect, add_border, border_width,
border_color)` from `grid-image.py` (`border_style` is read as a global in the
source and is an explicit argument here), tracking size and mode.
With `maintain_aspect` the image is thumbnailed into the box and pasted
centered on a fresh `(width, height)` background; otherwise it is resized to
exactly `(width, height)`.  A border is added only for the styles `"Solid"`
and `"Rounded"`; any other style string falls through both branches and the
un-bordered image is returned. -/
def resize_image (preserve_transparency : Bool) (border_style : String)
    (img : PImage) (width height : ℕ) (maintain_aspect : Bool)
    (add_border : Bool) (border_width : ℕ) : PImage :=
  let m1 : PMode := convertedMode preserve_transparency img.mode
  let img2 : PImage :=
    if maintain_aspect = true then
      { width := width, height := height,
        mode := if preserve_transparency = true ∧ m1 = .RGBA then .RGBA else .RGB }
    else
      { width := width, height := height, mode := m1 }
  if add_border = true ∧ 0 < border_width then
    if border_style = "Solid" ∨ border_style = "Rounded" then
      { width := width + 2 * border_width, height := height + 2 * border_width,
        mode := if preserve_transparency = true ∧ img2.mode = .RGBA then .RGBA else .RGB }
    else
      img2
  else
    img2

/-- The size of the thumbnail produced inside the `maintain_aspect` branch of
`resize_image`, before it is pasted onto the `(width, height)` background. -/
def aspectThumb (img : PImage) (width height : ℕ) : ℕ × ℕ :=
  thumbnailSize img.width img.height width height

/-- The centering offset `((width - img.size[0]) // 2, (height - img.size[1]) // 2)`
used to paste the thumbnail onto the background in `resize_image`. -/
def aspectOffset (img : PImage) (width height : ℕ) : ℕ × ℕ :=
  ((width - (aspectThumb img width height).1) / 2,
   (height - (aspectThumb img width height).2) / 2)

/-! ### Labels and layout (lines 230-231, 440-487 of `grid-image.py`) -/

/-- Whitespace characters removed by Python's `str.strip()` (ASCII range). -/
def isPySpace (c : Char) : Bool :=
  c = ' ' ∨ c = Char.ofNat 9 ∨ c = Char.ofNat 10 ∨ c = Char.ofNat 13 ∨
    c = Char.ofNat 11 ∨ c = Char.ofNat 12

/-- A label is blank when `label.strip()` is empty, i.e. every character is
whitespace. -/
def isBlank (s : String) : Bool :=
  s.toList.all isPySpace

/-- The loop `for label in labels: if label.strip(): m = max(m, measure label)`
starting from `0`: maximum measured extent over the non-blank labels. -/
def maxLabelExtent (measure : String → ℕ) (labels : List String) : ℕ :=
  labels.foldl (fun m l => if isBlank l then m else max m (measure l)) 0

/-- Top and bottom margins reserved for column labels. -/
structure ColMargins where
  top : ℕ
  bottom : ℕ
deriving DecidableEq

/-- Margin computation for column labels (lines 445-459): zero unless the
labels are shown and some label is non-blank; otherwise the maximal measured
text height plus 15, placed according to the position selector. -/
def colLabelMargins (show_col : Bool) (col_labels : List String)
    (measureH : String → ℕ) (col_label_pos : String) : ColMargins :=
  if show_col = true ∧ col_labels.any (fun l => ! isBlank l) then
    if col_label_pos = "Top" then ⟨maxLabelExtent measureH col_labels + 15, 0⟩
    else if col_label_pos = "Bottom" then ⟨0, maxLabelExtent measureH col_labels + 15⟩
    else if col_label_pos = "Both (Top & Bottom)" then
      ⟨maxLabelExtent measureH col_labels + 15, maxLabelExtent measureH col_labels + 15⟩
    else ⟨0, 0⟩
  else ⟨0, 0⟩

/-- Left and right margins reserved for row labels. -/
structure RowMargins where
  left : ℕ
  right : ℕ
deriving DecidableEq

/-- The `label_width` value for row labels (lines 461-475): measured text
width for horizontal labels, measured text height for vertical (rotated)
labels, plus 15. -/
def rowLabelWidth (row_labels : List String) (measureW measureH : String → ℕ)
    (orientation : String) : ℕ :=
  if orientation = "Horizontal" then maxLabelExtent measureW row_labels + 15
  else maxLabelExtent measureH row_labels + 15

/-- Margin computation for row labels (lines 461-483). -/
def rowLabelMargins (show_row : Bool) (row_labels : List String)
    (measureW measureH : String → ℕ) (orientation row_label_pos : String) : RowMargins :=
  if show_row = true ∧ row_labels.any (fun l => ! isBlank l) then
    if row_label_pos = "Left" then ⟨rowLabelWidth row_labels measureW measureH orientation, 0⟩
    else if row_label_pos = "Right" then
      ⟨0, rowLabelWidth row_labels measureW measureH orientation⟩
    else if row_label_pos = "Both (Left & Right)" then
      ⟨rowLabelWidth row_labels measureW measureH orientation,
       rowLabelWidth row_labels measureW measureH orientation⟩
    else ⟨0, 0⟩
  else ⟨0, 0⟩

/-- `actual_img_width = resize_width + (2 * border_width if add_borders else 0)`
(lines 436-437). -/
def actual_img_width (resize_width border_width : ℕ) (add_borders : Bool) : ℕ :=
  resize_width + (if add_borders = true then 2 * border_width else 0)

/-- The configuration record consumed by the layout computation. -/
structure GridConfig where
  rows : ℕ
  cols : ℕ
  resize_width : ℕ
  resize_height : ℕ
  spacing : ℕ
  add_borders : Bool
  border_width : ℕ
  show_col_labels : Bool
  show_row_labels : Bool
  col_labels : List String
  row_labels : List String
  col_label_pos : String
  row_label_pos : String
  row_label_orientation : String

/-- The quantities computed before the canvas is allocated. -/
structure Layout where
  top_label_height : ℕ
  bottom_label_height : ℕ
  left_label_width : ℕ
  right_label_width : ℕ
  actualW : ℕ
  actualH : ℕ
  gridW : ℕ
  gridH : ℕ

/-- Lines 436-487 of `grid-image.py`: bordered cell size, label margins, and
the final canvas dimensions
`grid_width = left + cols*actualW + (cols-1)*spacing + right` (and the
analogous height). -/
def computeLayout (cfg : GridConfig) (measureColH measureRowW measureRowH : String → ℕ) :
    Layout :=
  let aw := actual_img_width cfg.resize_width cfg.border_width cfg.add_borders
  let ah := actual_img_width cfg.resize_height cfg.border_width cfg.add_borders
  let cm := colLabelMargins cfg.show_col_labels cfg.col_labels measureColH cfg.col_label_pos
  let rm := rowLabelMargins cfg.show_row_labels cfg.row_labels measureRowW measureRowH
    cfg.row_label_orientation cfg.row_label_pos
  { top_label_height := cm.top
    bottom_label_height := cm.bottom
    left_label_width := rm.left
    right_label_width := rm.right
    actualW := aw
    actualH := ah
    gridW := rm.left + cfg.cols * aw + (cfg.cols - 1) * cfg.spacing + rm.right
    gridH := cm.top + cfg.rows * ah + (cfg.rows - 1) * cfg.spacing + cm.bottom }

/-- Modelled from the spec's words: the effective cell extent, `base + 2*width`
when borders are enabled and `base` otherwise, used to compare the code's
layout against the specified formula. -/
def cellExtent (base border_width : ℕ) (add_borders : Bool) : ℕ :=
  if add_borders = true then base + 2 * border_width else base

/-! ### Gradient background (lines 387-410) -/

/-- One channel of `create_gradient_background` at distance `pos` along the
gradient of total extent `extent`: Python computes
`int(c1 * (1 - ratio) + c2 * ratio)` with `ratio = pos / extent` in float
arithmetic; here the same expression over exact rationals, truncated by
`pyInt`.  Used for vertical gradients with `(pos, extent) = (y, height)` and
horizontal ones with `(x, width)`. -/
def gradientChannel (c1 c2 : ℕ) (pos extent : ℕ) : ℤ :=
  pyInt ((c1 : ℚ) * (1 - (pos : ℚ) / (extent : ℚ)) + (c2 : ℚ) * ((pos : ℚ) / (extent : ℚ)))

/-- Modelled from the spec's words: `channel = round(c1*(1-ratio) + c2*ratio)`,
rounding to the nearest integer, for comparison with the code's
`gradientChannel`. -/
def specRoundChannel (c1 c2 : ℕ) (pos extent : ℕ) : ℤ :=
  ⌊(c1 : ℚ) * (1 - (pos : ℚ) / (extent : ℚ)) + (c2 : ℚ) * ((pos : ℚ) / (extent : ℚ)) + 1 / 2⌋

/-! ### Vertical row-label compositing (lines 538-564) -/

/-- How a rotated vertical label buffer is combined with the canvas. -/
inductive CompositeOp
  | alphaPaste
  | flattenPaste (fill : ℕ × ℕ × ℕ)
deriving DecidableEq

/-- Lines 548-553 (and identically 559-564): alpha paste on a transparent
background; otherwise the rotated text is pasted onto a fresh solid `temp_bg`
whose fill is the background color for `"Solid Color"` and white
`(255, 255, 255)` for every other background type. -/
def verticalLabelComposite (background_type : String) (bg_color : ℕ × ℕ × ℕ) :
    CompositeOp :=
  if background_type = "Transparent" then .alphaPaste
  else .flattenPaste (if background_type = "Solid Color" then bg_color else (255, 255, 255))

/-! ### Image count handling and arrangement validation (lines 214-227, 291-299) -/

/-- Lines 217-223: the number of images actually placed. -/
def final_count (available expected : ℕ) : ℕ :=
  if available < expected then available else expected

/-- Line 217-218: the "fewer images than grid slots" case only produces a
warning banner. -/
def partialFillWarned (available expected : ℕ) : Bool :=
  available < expected

/-- Outcome of an arrangement-validation step: either the render proceeds or
`st.stop()` aborts it. -/
inductive ArrangeOutcome
  | proceed
  | stop
deriving DecidableEq

/-- Manual position validation (lines 291-299): stop when the entered
positions contain a duplicate, or when they are not exactly the set
`{1, ..., expected_count}`. -/
def manualArrangementOutcome (positions : List ℕ) (expected_count : ℕ) :
    ArrangeOutcome :=
  if positions.toFinset.card ≠ positions.length then .stop
  else if positions.toFinset ≠ (Finset.range expected_count).image (· + 1) then .stop
  else .proceed

/-- Drag-reorder validation (lines 262-266): stop only when the sorted list
does not cover all `min(expected_count, available)` entries. -/
def dragArrangementOutcome (sortedLength expected_count available : ℕ) :
    ArrangeOutcome :=
  if sortedLength ≠ min expected_count available then .stop else .proceed

/-! ### Export (lines 490-496, 669-678, 762-777) -/

/-- Mode of the allocated grid canvas (lines 490-496): RGBA only for the
`"Transparent"` background type, RGB otherwise (solid and gradient). -/
def gridCanvasMode (background_type : String) : PMode :=
  if background_type = "Transparent" then .RGBA else .RGB

/-- One export pass: either the canvas is handed to the encoder as is, or it
is first flattened onto a fresh solid background using its alpha channel as
the paste mask. -/
inductive ExportStep
  | encodeDirect (mode : PMode)
  | flattenThenEncode (fill : ℕ × ℕ × ℕ) (mode : PMode)
deriving DecidableEq

/-- The mode of the bitmap that actually reaches the encoder. -/
def encodedMode : ExportStep → PMode
  | .encodeDirect m => m
  | .flattenThenEncode _ m => m

/-- JPEG export (lines 671-678): an RGBA canvas is pasted onto an opaque
white RGB image with `mask=grid_img.split()[-1]` before `save(format="JPEG")`. -/
def jpegExport (canvasMode : PMode) : ExportStep :=
  if canvasMode = .RGBA then .flattenThenEncode (255, 255, 255) .RGB
  else .encodeDirect canvasMode

/-- BMP export (lines 764-771): same flattening as JPEG before
`save(format="BMP")`. -/
def bmpExport (canvasMode : PMode) : ExportStep :=
  if canvasMode = .RGBA then .flattenThenEncode (255, 255, 255) .RGB
  else .encodeDirect canvasMode

/-! ### Image paste loop (lines 567-582) -/

/-- The x coordinate at which image number `idx` (0-based, row-major) is
pasted.  When the last row is centered and holds fewer than `cols` images,
`start_x = left + (cols*(W+s) - s - total_img_width) // 2` shifts that row;
otherwise `x = left + col_idx * (W + s)`. -/
def pasteX (center_last_row : Bool) (rows cols left_label_width actualW spacing
    numImages idx : ℕ) : ℕ :=
  let row_idx := idx / cols
  let col_idx := idx % cols
  if center_last_row = true ∧ row_idx = rows - 1 then
    let remaining := numImages - row_idx * cols
    if remaining < cols then
      let total := remaining * actualW + (remaining - 1) * spacing
      left_label_width + (cols * (actualW + spacing) - spacing - total) / 2 +
        col_idx * (actualW + spacing)
    else
      left_label_width + col_idx * (actualW + spacing)
  else
    left_label_width + col_idx * (actualW + spacing)

/-! ### Unique file identifiers (lines 19-47) -/

/-- Index of the last `'.'` in a character list (Python `str.rfind('.')`). -/
def rfindDot (cs : List Char) : Option ℕ :=
  ((List.range cs.length).filter (fun i => cs.getD i ' ' = '.')).getLast?

/-- Python's `os.path.splitext` for a bare file name (no directory
separators): split at the last dot, except that a name consisting of leading
dots only is not split. -/
def splitext (s : String) : String × String :=
  let cs := s.toList
  match rfindDot cs with
  | none => (s, "")
  | some d =>
      if (List.range d).any (fun k => cs.getD k ' ' ≠ '.') then
        (⟨cs.take d⟩, ⟨cs.drop d⟩)
      else
        (s, "")

/-- `create_unique_id` (lines 19-30): the identifier is
`base_name ++ "_" ++ md5(content[:1024])[:8] ++ extension`.  The hash is an
external primitive and enters as the function `md5hex8`; the `index`
parameter is accepted but never used. -/
def create_unique_id (md5hex8 : List ℕ → String) (name : String)
    (content : List ℕ) (index : ℕ) : String :=
  (splitext name).1 ++ "_" ++ md5hex8 (content.take 1024) ++ (splitext name).2

/-- The `unique_files` list built in lines 33-40: one identifier per uploaded
file, in order, passing the enumeration index to `create_unique_id`. -/
def unique_files (md5hex8 : List ℕ → String) (files : List (String × List ℕ)) :
    List String :=
  files.enum.map (fun p => create_unique_id md5hex8 p.2.1 p.2.2 p.1)

/-- The dictionary updates `file_id_to_file[unique_id] = file_ref` performed
in order over the enumerated uploads (lines 37-40); a later upload with the
same identifier overwrites an earlier one. -/
def buildMap (md5hex8 : List ℕ → String) :
    List (ℕ × (String × List ℕ)) → (String → Option (List ℕ)) → String →
      Option (List ℕ)
  | [], m => m
  | p :: rest, m =>
      buildMap md5hex8 rest
        (fun id =>
          if id = create_unique_id md5hex8 p.2.1 p.2.2 p.1 then some p.2.2 else m id)

/-- The content of the last enumerated upload whose identifier is `id`
(`none` when no upload produces that identifier): the reference value for the
dictionary, expressing that the later of two colliding uploads is retained. -/
def lookupLast (md5hex8 : List ℕ → String) :
    List (ℕ × (String × List ℕ)) → String → Option (List ℕ)
  | [], _ => none
  | p :: rest, id =>
      match lookupLast md5hex8 rest id with
      | some v => some v
      | none =>
          if id = create_unique_id md5hex8 p.2.1 p.2.2 p.1 then some p.2.2 else none

/-- The `file_id_to_file` dictionary after the upload loop (lines 33-40). -/
def file_id_to_file (md5hex8 : List ℕ → String) (files : List (String × List ℕ)) :
    String → Option (List ℕ) :=
  buildMap md5hex8 files.enum (fun _ => none)

end GridImage

namespace GridImage

/-! ## Claim C1: normalized cell dimensions -/

/-- C1 (counterexample): with borders enabled (`border_width = 5`) and the
selectable style `"Dashed"`, `resize_image` does not return a bitmap of the
effective cell width `cellWidth + 2*borderWidth`: the border branch handles
only `"Solid"` and `"Rounded"`, so the image comes back un-bordered at
`100 × 100` while the layout reserves `110 × 110`. -/
theorem C1_counterexample :
    (resize_image true "Dashed" ⟨50, 50, PMode.RGB⟩ 100 100 false true 5).width ≠
      100 + 2 * 5 := by
  decide

/-- C1 (amended): for the border styles `"Solid"` and `"Rounded"`, and for
every style when borders are disabled, `resize_image` returns a bitmap of
exactly `cellWidth + 2*borderWidth` by `cellHeight + 2*borderWidth` when
borders are enabled and `cellWidth × cellHeight` otherwise; for any other
style string — in particular the selectable `"Dashed"` — the returned bitmap
is exactly `cellWidth × cellHeight` regardless of the border settings, even
though the layout still reserves the bordered extent. -/
theorem C1_amended (pt : Bool) (style : String) (img : PImage) (w h : ℕ)
    (ma ab : Bool) (bw : ℕ) :
    ((style = "Solid" ∨ style = "Rounded" ∨ ab = false) →
      (resize_image pt style img w h ma ab bw).width
          = w + (if ab = true then 2 * bw else 0) ∧
      (resize_image pt style img w h ma ab bw).height
          = h + (if ab = true then 2 * bw else 0)) ∧
    (¬ (style = "Solid" ∨ style = "Rounded") →
      (resize_image pt style img w h ma ab bw).width = w ∧
      (resize_image pt style img w h ma ab bw).height = h) := by
  constructor
  · intro hstyle
    cases ab with
    | false => cases ma <;> simp [resize_image]
    | true =>
      have hsr : style = "Solid" ∨ style = "Rounded" := by
        rcases hstyle with h' | h' | h'
        · exact Or.inl h'
        · exact Or.inr h'
        · cases h'
      by_cases hbw : 0 < bw
      · rcases hsr with h' | h' <;> subst h' <;>
          cases ma <;> simp [resize_image, hbw]
      · have hbw0 : bw = 0 := by omega
        subst hbw0
        cases ma <;> simp [resize_image]
  · intro hns
    cases ab <;> cases ma <;> by_cases hbw : 0 < bw <;>
      simp [resize_image, hns, hbw]

/-- C1 (witness for the amended theorem): a `50 × 50` RGB source and target
cell `100 × 100` with a width-5 border yield a `110 × 110` bitmap for the
`"Solid"` style but a `100 × 100` bitmap for `"Dashed"`. -/
theorem C1_witness :
    ((resize_image true "Solid" ⟨50, 50, PMode.RGB⟩ 100 100 false true 5).width
        = 100 + (if true = true then 2 * 5 else 0) ∧
     (resize_image true "Solid" ⟨50, 50, PMode.RGB⟩ 100 100 false true 5).height
        = 100 + (if true = true then 2 * 5 else 0)) ∧
    ((resize_image true "Dashed" ⟨50, 50, PMode.RGB⟩ 100 100 false true 5).width = 100 ∧
     (resize_image true "Dashed" ⟨50, 50, PMode.RGB⟩ 100 100 false true 5).height = 100) :=
  ⟨(C1_amended true "Solid" ⟨50, 50, PMode.RGB⟩ 100 100 false true 5).1
      (Or.inl rfl),
   (C1_amended true "Dashed" ⟨50, 50, PMode.RGB⟩ 100 100 false true 5).2
      (by decide)⟩

/-! ## Claim C2: centered last row -/

/-- C2 (counterexample): with `rows = 2`, `cols = 3`, `spacing = 10`,
`cellExtentW = 100`, 4 images and `leftMargin = 0`, the claim predicts
`startX = leftMargin + 100` for the single image of the last row, but the
code computes `(3*110 - 10 - 100) / 2 = 110`. -/
theorem C2_counterexample :
    pasteX true 2 3 0 100 10 4 3 ≠ 0 + 100 := by
  decide

/-- C2 (amended): with `centerLastRow` enabled, a partially filled last row
of `n` images starts at
`startX = leftMargin + (fullRowWidth - rowImageSpan)/2` (floor division) with
`rowImageSpan = n*cellExtentW + (n-1)*spacing` and
`fullRowWidth = cols*cellExtentW + (cols-1)*spacing`; in the claim's
example (`rows = 2`, `cols = 3`, `spacing = 10`, `cellExtentW = 100`, 4
images) this is `startX = leftMargin + 110`, not `leftMargin + 100`. -/
theorem C2_amended (rows cols left W s numImages idx : ℕ)
    (hcols : 0 < cols)
    (hrow : idx / cols = rows - 1)
    (hn : numImages - (rows - 1) * cols < cols) :
    pasteX true rows cols left W s numImages idx =
      left + (cols * W + (cols - 1) * s -
          ((numImages - (rows - 1) * cols) * W +
            ((numImages - (rows - 1) * cols) - 1) * s)) / 2 +
        (idx % cols) * (W + s) := by
  obtain ⟨c, rfl⟩ : ∃ c, cols = c + 1 := ⟨cols - 1, by omega⟩
  have key : (c + 1) * (W + s) - s = (c + 1) * W + c * s := by
    have h1 : (c + 1) * (W + s) = (c + 1) * W + c * s + s := by ring
    omega
  simp only [pasteX, hrow, true_and, if_true, hn, if_pos, Nat.add_sub_cancel, key]

/-- C2 (witness for the amended theorem): `rows = 2`, `cols = 3`,
`spacing = 10`, `cellExtentW = 100`, 4 images, `leftMargin = 7`: the single
image of the last row is pasted at `x = 7 + 110 = 117`. -/
theorem C2_witness : pasteX true 2 3 7 100 10 4 3 = 117 := by
  have h := C2_amended 2 3 7 100 10 4 3 (by decide) (by decide) (by decide)
  rw [h]

/-! ## Claim C6: canvas dimensions -/

/-- C6: for every configuration the computed canvas width is exactly
`leftMargin + cols*cellExtentW + (cols-1)*spacing + rightMargin`, and the
canvas height is exactly
`topMargin + rows*cellExtentH + (rows-1)*spacing + bottomMargin`, in integer
arithmetic. -/
theorem C6_canvas_dims (cfg : GridConfig) (mCH mRW mRH : String → ℕ) :
    (computeLayout cfg mCH mRW mRH).gridW =
      (computeLayout cfg mCH mRW mRH).left_label_width +
        cfg.cols * cellExtent cfg.resize_width cfg.border_width cfg.add_borders +
        (cfg.cols - 1) * cfg.spacing +
        (computeLayout cfg mCH mRW mRH).right_label_width ∧
    (computeLayout cfg mCH mRW mRH).gridH =
      (computeLayout cfg mCH mRW mRH).top_label_height +
        cfg.rows * cellExtent cfg.resize_height cfg.border_width cfg.add_borders +
        (cfg.rows - 1) * cfg.spacing +
        (computeLayout cfg mCH mRW mRH).bottom_label_height := by
  unfold computeLayout cellExtent actual_img_width
  cases h : cfg.add_borders <;> simp [h]

end GridImage

namespace GridImage

/-! ## Claim C3: gradient interpolation -/

/-- C3 (counterexample): the code truncates with `int(...)` rather than
rounding: for the vertical gradient from `(255,255,255)` to `(0,0,0)` of
height 100, at row 99 the code's channel value (2, from `int(2.55)`) differs
from the claimed `round` formula (3). -/
theorem C3_counterexample :
    gradientChannel 255 0 99 100 ≠ specRoundChannel 255 0 99 100 := by
  norm_num [gradientChannel, specRoundChannel, pyInt]

/-- C3 (amended): each pixel channel along the gradient direction equals the
truncation `int(c1*(1-ratio) + c2*ratio)` with `ratio = position/extent` —
for `position ≤ extent` this is exactly `⌊(c1*(extent-position) +
c2*position) / extent⌋`; in particular for the vertical white-to-black
gradient of height 100, row 0 is `(255,255,255)`, row 50 is `(127,127,127)`
and row 99 is `(2,2,2)`. -/
theorem C3_amended (c1 c2 y H : ℕ) (hy : y ≤ H) (hH : 0 < H) :
    gradientChannel c1 c2 y H = ((c1 * (H - y) + c2 * y) / H : ℕ) := by
  have hHQ : (H : ℚ) ≠ 0 := Nat.cast_ne_zero.mpr hH.ne'
  have hq : (c1 : ℚ) * (1 - (y : ℚ) / (H : ℚ)) + (c2 : ℚ) * ((y : ℚ) / (H : ℚ))
      = ((c1 * (H - y) + c2 * y : ℕ) : ℚ) / (H : ℚ) := by
    push_cast [Nat.cast_sub hy]
    field_simp
  have hnn : 0 ≤ ((c1 * (H - y) + c2 * y : ℕ) : ℚ) / (H : ℚ) := by positivity
  rw [gradientChannel, hq, pyInt, if_pos hnn]
  rw [show ((c1 * (H - y) + c2 * y : ℕ) : ℚ)
        = (((c1 * (H - y) + c2 * y : ℕ) : ℤ) : ℚ) by push_cast; ring]
  rw [Rat.floor_intCast_div_natCast]
  exact_mod_cast rfl

/-- C3 (witness for the amended theorem): the three sample rows of the
white-to-black vertical gradient of height 100. -/
theorem C3_witness :
    gradientChannel 255 0 0 100 = ((255 * (100 - 0) + 0 * 0) / 100 : ℕ) ∧
    gradientChannel 255 0 50 100 = ((255 * (100 - 50) + 0 * 50) / 100 : ℕ) ∧
    gradientChannel 255 0 99 100 = ((255 * (100 - 99) + 0 * 99) / 100 : ℕ) :=
  ⟨C3_amended 255 0 0 100 (by decide) (by decide),
   C3_amended 255 0 50 100 (by decide) (by decide),
   C3_amended 255 0 99 100 (by decide) (by decide)⟩

/-! ## Claim C4: vertical row-label compositing -/

/-- C4 (counterexample): on a `"Gradient"` background the rotated label is
flattened onto a fixed white fill, not onto a fill matching the background:
with a black-to-black gradient every background pixel is `(0,0,0)` while the
fill used is `(255,255,255)`. -/
theorem C4_counterexample :
    verticalLabelComposite "Gradient" (0, 0, 0) = .flattenPaste (255, 255, 255) ∧
    gradientChannel 0 0 10 100 = 0 ∧
    ((255, 255, 255) : ℕ × ℕ × ℕ) ≠ (0, 0, 0) := by
  refine ⟨by decide, by norm_num [gradientChannel, pyInt], by decide⟩

/-- C4 (amended): vertical row labels on a transparent background are
alpha-pasted; on a `"Solid Color"` background they are flattened onto a fill
equal to the background color; on a `"Gradient"` background they are
flattened onto a fixed white `(255,255,255)` fill, which in general does not
match the gradient. -/
theorem C4_amended (bg : ℕ × ℕ × ℕ) :
    verticalLabelComposite "Transparent" bg = .alphaPaste ∧
    verticalLabelComposite "Solid Color" bg = .flattenPaste bg ∧
    verticalLabelComposite "Gradient" bg = .flattenPaste (255, 255, 255) := by
  refine ⟨?_, ?_, ?_⟩ <;> simp [verticalLabelComposite]

/-! ## Claim C5: fewer images than grid slots -/

/-- C5: when fewer images are available than `rows*cols`, the code does show
the "last row will be partially filled" warning, but the manual-position
arrangement path can never proceed: it creates only
`min(expected, available)` position inputs yet validates them against the
full set `{1, ..., expected}`, so the validation necessarily calls
`st.stop()`.  The code contradicts its own warning banner. -/
theorem C5_theorem (available expected : ℕ) (positions : List ℕ)
    (hlt : available < expected)
    (hlen : positions.length = min expected available) :
    partialFillWarned available expected = true ∧
    manualArrangementOutcome positions expected = .stop := by
  constructor
  · simp [partialFillWarned, hlt]
  · unfold manualArrangementOutcome
    by_cases h1 : positions.toFinset.card ≠ positions.length
    · rw [if_pos h1]
    · push_neg at h1
      have h2 : positions.toFinset ≠ (Finset.range expected).image (· + 1) := by
        intro he
        have hc := congrArg Finset.card he
        rw [Finset.card_image_of_injective _ (add_left_injective 1),
          Finset.card_range] at hc
        omega
      rw [if_neg (not_not.mpr h1), if_pos h2]

/-- C5 (witness): 4 uploads into a 2×3 grid (6 slots): the warning fires and
the manual-position path stops. -/
theorem C5_witness :
    partialFillWarned 4 6 = true ∧
    manualArrangementOutcome [1, 2, 3, 4] 6 = .stop :=
  C5_theorem 4 6 [1, 2, 3, 4] (by decide) (by decide)

end GridImage

namespace GridImage

/-! ## Claim C7: reserved label margins -/

/-- The conditional fold of the margin loops, started from any accumulator,
equals the plain `max`-fold over the measures of the non-blank labels. -/
theorem foldl_extent (measure : String → ℕ) (labels : List String) (a : ℕ) :
    labels.foldl (fun m l => if isBlank l then m else max m (measure l)) a =
      ((labels.filter (fun l => ! isBlank l)).map measure).foldl max a := by
  induction labels generalizing a with
  | nil => rfl
  | cons l ls ih =>
    by_cases hb : isBlank l
    · simp [List.foldl_cons, hb, List.filter_cons, ih]
    · simp [List.foldl_cons, hb, List.filter_cons, ih]

/-- `maxLabelExtent` is the maximum of the measured extents of the non-blank
labels (`0` when there is none). -/
theorem maxLabelExtent_eq_filter (measure : String → ℕ) (labels : List String) :
    maxLabelExtent measure labels =
      ((labels.filter (fun l => ! isBlank l)).map measure).foldl max 0 :=
  foldl_extent measure labels 0

/-- C7: an axis whose labels are disabled, or all of whose texts are blank
after stripping whitespace, reserves exactly 0 margin; an enabled axis with
some non-blank text reserves `max(measured extent over non-blank texts) + 15`
at the selected position(s), where the extent is the measured width for
horizontal row labels and the measured height for column labels and vertical
row labels. -/
theorem C7_margins (showCol showRow : Bool) (colLabels rowLabels : List String)
    (mCH mRW mRH : String → ℕ) (cpos rpos orient : String) :
    ((showCol = false ∨ colLabels.all isBlank = true) →
        colLabelMargins showCol colLabels mCH cpos = ⟨0, 0⟩) ∧
    ((showRow = false ∨ rowLabels.all isBlank = true) →
        rowLabelMargins showRow rowLabels mRW mRH orient rpos = ⟨0, 0⟩) ∧
    (showCol = true → colLabels.any (fun l => ! isBlank l) = true →
      ((cpos = "Top" →
          colLabelMargins showCol colLabels mCH cpos =
            ⟨((colLabels.filter (fun l => ! isBlank l)).map mCH).foldl max 0 + 15, 0⟩) ∧
       (cpos = "Bottom" →
          colLabelMargins showCol colLabels mCH cpos =
            ⟨0, ((colLabels.filter (fun l => ! isBlank l)).map mCH).foldl max 0 + 15⟩) ∧
       (cpos = "Both (Top & Bottom)" →
          colLabelMargins showCol colLabels mCH cpos =
            ⟨((colLabels.filter (fun l => ! isBlank l)).map mCH).foldl max 0 + 15,
             ((colLabels.filter (fun l => ! isBlank l)).map mCH).foldl max 0 + 15⟩))) ∧
    (showRow = true → rowLabels.any (fun l => ! isBlank l) = true →
      ((rpos = "Left" →
          rowLabelMargins showRow rowLabels mRW mRH orient rpos =
            ⟨rowLabelWidth rowLabels mRW mRH orient, 0⟩) ∧
       (rpos = "Right" →
          rowLabelMargins showRow rowLabels mRW mRH orient rpos =
            ⟨0, rowLabelWidth rowLabels mRW mRH orient⟩) ∧
       (rpos = "Both (Left & Right)" →
          rowLabelMargins showRow rowLabels mRW mRH orient rpos =
            ⟨rowLabelWidth rowLabels mRW mRH orient,
             rowLabelWidth rowLabels mRW mRH orient⟩))) ∧
    (rowLabelWidth rowLabels mRW mRH "Horizontal" =
        ((rowLabels.filter (fun l => ! isBlank l)).map mRW).foldl max 0 + 15) ∧
    (rowLabelWidth rowLabels mRW mRH "Vertical" =
        ((rowLabels.filter (fun l => ! isBlank l)).map mRH).foldl max 0 + 15) := by
  have hblankC : (showCol = false ∨ colLabels.all isBlank = true) →
      ¬ (showCol = true ∧ colLabels.any (fun l => ! isBlank l) = true) := by
    rintro (h | h) ⟨h1, h2⟩
    · rw [h] at h1; cases h1
    · obtain ⟨l, hl, hnb⟩ := List.any_eq_true.mp h2
      have := List.all_eq_true.mp h l hl
      simp [this] at hnb
  have hblankR : (showRow = false ∨ rowLabels.all isBlank = true) →
      ¬ (showRow = true ∧ rowLabels.any (fun l => ! isBlank l) = true) := by
    rintro (h | h) ⟨h1, h2⟩
    · rw [h] at h1; cases h1
    · obtain ⟨l, hl, hnb⟩ := List.any_eq_true.mp h2
      have := List.all_eq_true.mp h l hl
      simp [this] at hnb
  refine ⟨?_, ?_, ?_, ?_, ?_, ?_⟩
  · intro h
    rw [colLabelMargins, if_neg (hblankC h)]
  · intro h
    rw [rowLabelMargins, if_neg (hblankR h)]
  · intro hs ha
    subst hs
    refine ⟨?_, ?_, ?_⟩ <;> intro hp <;> subst hp <;>
      simp [colLabelMargins, ha, maxLabelExtent_eq_filter]
  · intro hs ha
    subst hs
    refine ⟨?_, ?_, ?_⟩ <;> intro hp <;> subst hp <;>
      simp [rowLabelMargins, ha]
  · simp [rowLabelWidth, maxLabelExtent_eq_filter]
  · simp [rowLabelWidth, maxLabelExtent_eq_filter]

/-- C7 (witness): enabled column labels `["Col 1", " "]` (one blank) with a
length measure and position `"Top"` reserve `max + 15` on top and 0 below;
with labels disabled the reserved margins are 0. -/
theorem C7_witness :
    (colLabelMargins true ["Col 1", " "] String.length "Top" =
      ⟨(((["Col 1", " "].filter (fun l => ! isBlank l)).map String.length)).foldl max 0 + 15,
       0⟩) ∧
    colLabelMargins false ["Col 1", " "] String.length "Top" = ⟨0, 0⟩ :=
  ⟨((C7_margins true false ["Col 1", " "] [] String.length String.length String.length
      "Top" "Left" "Horizontal").2.2.1 rfl (by decide)).1 rfl,
   (C7_margins false false ["Col 1", " "] [] String.length String.length String.length
      "Top" "Left" "Horizontal").1 (Or.inl rfl)⟩

/-! ## Claim C9: JPEG and BMP export of an RGBA canvas -/

/-- C9: for every background type the bitmap handed to the JPEG and BMP
encoders is RGB — an RGBA canvas (transparent background) is first flattened
onto an opaque white background using its alpha channel as paste mask, so the
encoders never see an alpha channel and never fail on one. -/
theorem C9_export (background_type : String) :
    encodedMode (jpegExport (gridCanvasMode background_type)) = .RGB ∧
    encodedMode (bmpExport (gridCanvasMode background_type)) = .RGB ∧
    (gridCanvasMode background_type = .RGBA →
      jpegExport (gridCanvasMode background_type)
          = .flattenThenEncode (255, 255, 255) .RGB ∧
      bmpExport (gridCanvasMode background_type)
          = .flattenThenEncode (255, 255, 255) .RGB) := by
  unfold gridCanvasMode jpegExport bmpExport
  by_cases h : background_type = "Transparent" <;> simp [h, encodedMode]

/-- C9 (witness): the transparent background produces an RGBA canvas and the
flatten-then-encode path. -/
theorem C9_witness :
    encodedMode (jpegExport (gridCanvasMode "Transparent")) = .RGB ∧
    encodedMode (bmpExport (gridCanvasMode "Transparent")) = .RGB ∧
    (gridCanvasMode "Transparent" = .RGBA →
      jpegExport (gridCanvasMode "Transparent")
          = .flattenThenEncode (255, 255, 255) .RGB ∧
      bmpExport (gridCanvasMode "Transparent")
          = .flattenThenEncode (255, 255, 255) .RGB) :=
  C9_export "Transparent"

end GridImage

namespace GridImage

/-! ## Claim C8: aspect-preserving and scale-to-fill resize -/

/-- `roundAspect` stays below any bound `B ≥ 1` that dominates `number`. -/
theorem roundAspect_le (number : ℚ) (key : ℤ → ℚ) (B : ℕ)
    (hB : 1 ≤ B) (h : number ≤ (B : ℚ)) :
    (roundAspect number key).toNat ≤ B := by
  have hceil : ⌈number⌉ ≤ (B : ℤ) := by
    rw [Int.ceil_le]
    exact_mod_cast h
  have hfloor : ⌊number⌋ ≤ (B : ℤ) := le_trans (Int.floor_le_ceil number) hceil
  have hmax : roundAspect number key ≤ (B : ℤ) := by
    unfold roundAspect
    apply max_le
    · split <;> assumption
    · exact_mod_cast hB
  exact Int.toNat_le.mpr hmax

/-- The thumbnail computed by Pillow never exceeds the requested box. -/
theorem thumbnailSize_le (w0 h0 tw th : ℕ) (hw0 : 0 < w0) (hh0 : 0 < h0)
    (htw : 0 < tw) (hth : 0 < th) :
    (thumbnailSize w0 h0 tw th).1 ≤ tw ∧ (thumbnailSize w0 h0 tw th).2 ≤ th := by
  have hh0Q : (0 : ℚ) < (h0 : ℚ) := by exact_mod_cast hh0
  have hw0Q : (0 : ℚ) < (w0 : ℚ) := by exact_mod_cast hw0
  have hthQ : (0 : ℚ) < (th : ℚ) := by exact_mod_cast hth
  have haspect : (0 : ℚ) < (w0 : ℚ) / (h0 : ℚ) := div_pos hw0Q hh0Q
  unfold thumbnailSize
  split
  case isTrue h => exact ⟨h.1, h.2⟩
  case isFalse h =>
    split
    case isTrue hge =>
      refine ⟨?_, le_refl th⟩
      apply roundAspect_le _ _ tw htw
      have h1 : (th : ℚ) * ((w0 : ℚ) / (h0 : ℚ)) ≤ (th : ℚ) * ((tw : ℚ) / (th : ℚ)) :=
        mul_le_mul_of_nonneg_left hge (le_of_lt hthQ)
      have h2 : (th : ℚ) * ((tw : ℚ) / (th : ℚ)) = (tw : ℚ) := by
        field_simp
      rw [h2] at h1
      exact h1
    case isFalse hlt =>
      refine ⟨le_refl tw, ?_⟩
      apply roundAspect_le _ _ th hth
      have h1 : (tw : ℚ) / (th : ℚ) < (w0 : ℚ) / (h0 : ℚ) := lt_of_not_le hlt
      have h2 : (tw : ℚ) < (w0 : ℚ) / (h0 : ℚ) * (th : ℚ) := (div_lt_iff₀ hthQ).mp h1
      rw [div_le_iff₀ haspect, mul_comm]
      exact le_of_lt h2

/-- C8: with `maintainAspect` the thumbnail never exceeds the `(w, h)` cell
box in either dimension, its centering offset keeps it inside the box, and
the composite background returned by `resize_image` is exactly `(w, h)`;
without `maintainAspect` the resize is exactly `(w, h)`. -/
theorem C8_resize (pt : Bool) (style : String) (img : PImage) (w h : ℕ)
    (hw0 : 0 < img.width) (hh0 : 0 < img.height) (hw : 0 < w) (hh : 0 < h) :
    (aspectThumb img w h).1 ≤ w ∧ (aspectThumb img w h).2 ≤ h ∧
    (aspectOffset img w h).1 + (aspectThumb img w h).1 ≤ w ∧
    (aspectOffset img w h).2 + (aspectThumb img w h).2 ≤ h ∧
    (resize_image pt style img w h true false 0).width = w ∧
    (resize_image pt style img w h true false 0).height = h ∧
    (resize_image pt style img w h false false 0).width = w ∧
    (resize_image pt style img w h false false 0).height = h := by
  obtain ⟨h1, h2⟩ := thumbnailSize_le img.width img.height w h hw0 hh0 hw hh
  refine ⟨h1, h2, ?_, ?_, ?_, ?_, ?_, ?_⟩
  · unfold aspectOffset aspectThumb
    omega
  · unfold aspectOffset aspectThumb
    omega
  · simp [resize_image]
  · simp [resize_image]
  · simp [resize_image]
  · simp [resize_image]

/-- C8 (witness): a `200 × 100` source thumbnailed into a `100 × 100` box. -/
theorem C8_witness :
    (aspectThumb ⟨200, 100, PMode.RGB⟩ 100 100).1 ≤ 100 ∧
    (aspectThumb ⟨200, 100, PMode.RGB⟩ 100 100).2 ≤ 100 ∧
    (aspectOffset ⟨200, 100, PMode.RGB⟩ 100 100).1 +
        (aspectThumb ⟨200, 100, PMode.RGB⟩ 100 100).1 ≤ 100 ∧
    (aspectOffset ⟨200, 100, PMode.RGB⟩ 100 100).2 +
        (aspectThumb ⟨200, 100, PMode.RGB⟩ 100 100).2 ≤ 100 ∧
    (resize_image false "Solid" ⟨200, 100, PMode.RGB⟩ 100 100 true false 0).width = 100 ∧
    (resize_image false "Solid" ⟨200, 100, PMode.RGB⟩ 100 100 true false 0).height = 100 ∧
    (resize_image false "Solid" ⟨200, 100, PMode.RGB⟩ 100 100 false false 0).width = 100 ∧
    (resize_image false "Solid" ⟨200, 100, PMode.RGB⟩ 100 100 false false 0).height = 100 :=
  C8_resize false "Solid" ⟨200, 100, PMode.RGB⟩ 100 100
    (by decide) (by decide) (by decide) (by decide)

end GridImage

namespace GridImage

/-! ## Claim C10: colliding unique identifiers -/

/-- `buildMap` keeps, for every identifier, the value of the last matching
entry, falling back to the initial map: Python dict assignment in a loop
retains the later write. -/
theorem buildMap_eq (md5hex8 : List ℕ → String)
    (l : List (ℕ × (String × List ℕ))) (m : String → Option (List ℕ)) (id : String) :
    buildMap md5hex8 l m id =
      match lookupLast md5hex8 l id with
      | some v => some v
      | none => m id := by
  induction l generalizing m with
  | nil => rfl
  | cons p rest ih =>
    rw [buildMap, ih, lookupLast]
    cases hfind : lookupLast md5hex8 rest id with
    | some v => rfl
    | none =>
      by_cases hp : id = create_unique_id md5hex8 p.2.1 p.2.2 p.1
      · simp [hp]
      · simp [hp]

/-- The identifier list has one entry per upload. -/
theorem unique_files_length (md5hex8 : List ℕ → String)
    (files : List (String × List ℕ)) :
    (unique_files md5hex8 files).length = files.length := by
  simp [unique_files]

/-- Entry `i` of the identifier list is the identifier of upload `i`. -/
theorem unique_files_get (md5hex8 : List ℕ → String) (files : List (String × List ℕ))
    (i : ℕ) (hi : i < files.length) (hi' : i < (unique_files md5hex8 files).length) :
    (unique_files md5hex8 files).get ⟨i, hi'⟩ =
      create_unique_id md5hex8 (files.get ⟨i, hi⟩).1 (files.get ⟨i, hi⟩).2 i := by
  simp [unique_files]

/-- C10: two uploads with the same filename and identical first 1024 bytes of
content receive the same identifier — the enumeration index has no effect —
so the identifier list has a duplicate, the number of distinct identifiers is
strictly smaller than the number of uploads, and the identifier-to-file
dictionary retains, for every identifier, only the last (later) upload that
produced it. -/
theorem C10_unique_id (md5hex8 : List ℕ → String) (nm : String) (c1 c2 : List ℕ)
    (ia ja : ℕ) (hc : c1.take 1024 = c2.take 1024)
    (files : List (String × List ℕ)) (i j : ℕ)
    (hi : i < files.length) (hj : j < files.length) (hij : i ≠ j)
    (hfi : files.get ⟨i, hi⟩ = (nm, c1)) (hfj : files.get ⟨j, hj⟩ = (nm, c2)) :
    create_unique_id md5hex8 nm c1 ia = create_unique_id md5hex8 nm c2 ja ∧
    (unique_files md5hex8 files).toFinset.card < files.length ∧
    (∀ id, file_id_to_file md5hex8 files id = lookupLast md5hex8 files.enum id) := by
  have hid : ∀ k k',
      create_unique_id md5hex8 nm c1 k = create_unique_id md5hex8 nm c2 k' := by
    intro k k'
    unfold create_unique_id
    rw [hc]
  have hlen := unique_files_length md5hex8 files
  have hi' : i < (unique_files md5hex8 files).length := by omega
  have hj' : j < (unique_files md5hex8 files).length := by omega
  have hget : (unique_files md5hex8 files).get ⟨i, hi'⟩ =
      (unique_files md5hex8 files).get ⟨j, hj'⟩ := by
    rw [unique_files_get md5hex8 files i hi hi', unique_files_get md5hex8 files j hj hj',
      hfi, hfj]
    exact hid i j
  have hnodup : ¬ (unique_files md5hex8 files).Nodup := by
    intro hn
    have hinj := List.nodup_iff_injective_get.mp hn hget
    exact hij (by simpa using congrArg Fin.val hinj)
  refine ⟨hid ia ja, ?_, ?_⟩
  · rw [List.card_toFinset]
    have hd1 : (unique_files md5hex8 files).dedup.length ≤
        (unique_files md5hex8 files).length := (List.dedup_sublist _).length_le
    have hd2 : (unique_files md5hex8 files).dedup.length ≠
        (unique_files md5hex8 files).length := by
      intro he
      have heq := (List.dedup_sublist (unique_files md5hex8 files)).eq_of_length_le
        (le_of_eq he.symm)
      exact hnodup (heq ▸ List.nodup_dedup (unique_files md5hex8 files))
    omega
  · intro id
    rw [file_id_to_file, buildMap_eq]
    cases h : lookupLast md5hex8 files.enum id <;> simp

/-- C10 (witness): two uploads named `a.png` with identical content collide;
only one distinct identifier remains out of two uploads. -/
theorem C10_witness :
    create_unique_id (fun _ => "h8") "a.png" [1, 2] 0 =
      create_unique_id (fun _ => "h8") "a.png" [1, 2] 1 ∧
    (unique_files (fun _ => "h8")
        [("a.png", [1, 2]), ("a.png", [1, 2])]).toFinset.card < 2 ∧
    (∀ id, file_id_to_file (fun _ => "h8")
          [("a.png", [1, 2]), ("a.png", [1, 2])] id =
        lookupLast (fun _ => "h8")
          ([("a.png", [1, 2]), ("a.png", [1, 2])] :
            List (String × List ℕ)).enum id) :=
  C10_unique_id (fun _ => "h8") "a.png" [1, 2] [1, 2] 0 1 rfl
    [("a.png", [1, 2]), ("a.png", [1, 2])] 0 1
    (by decide) (by decide) (by decide) rfl rfl

end GridImage
